import Mathlib

/-!
Shallow embedding of the rp2040-rom crate (src/lib.rs).

The crate walks the RP2040 boot ROM indirection chain: two fixed 16-bit
offsets each hold a 16-bit pointer (to the ROM function table and to the
ROM lookup-helper routine); the helper is invoked with the table pointer
and a packed two-character key and returns the address of the requested
ROM function.  The crate holds no state: `struct ROM` has no fields and
there are no statics, so each operation is a pure function of the hardware
environment.

Machine integers are modelled as `Nat` with explicit `% 2^w` where the
source performs a cast or a fixed-width read; pointers are address-sized
naturals (32-bit on the RP2040).  Memory reads, memory writes and foreign
calls are recorded as an explicit event trace, so that theorems can speak
about exactly which reads a routine performs and which addresses it calls.
-/

/-- ROM function table offset for the RP2040
(src/lib.rs, `const BOOTROM_FUNC_TABLE_OFFSET: u16 = 0x14`). -/
def BOOTROM_FUNC_TABLE_OFFSET : Nat := 0x14

/-- ROM lookup table offset for the RP2040
(src/lib.rs, `const BOOTROM_TABLE_LOOKUP_OFFSET: u16 = 0x18`). -/
def BOOTROM_TABLE_LOOKUP_OFFSET : Nat := 0x18

/-- The two character code for the reset_usb_boot function in the lookup
table (src/lib.rs, `const ROM_FUNC_RESET_USB_BOOT: (u8, u8) = (b'U', b'B')`;
b'U' = 0x55, b'B' = 0x42). -/
def ROM_FUNC_RESET_USB_BOOT : Nat × Nat := (0x55, 0x42)

/-- Hardware environment seen by the crate: `mem a` is the 16-bit cell at
address `a` (reads mask to 16 bits), and `callFn f x y` is the value
returned when the code at address `f` is invoked with arguments `x`, `y`
under the C ABI.  This models both the ROM lookup-helper behaviour and the
looked-up ROM functions themselves.  The environment is immutable: the
crate never writes it. -/
structure RomEnv where
  mem : Nat → Nat
  callFn : Nat → Nat → Nat → Nat

/-- Observable event emitted while the crate runs: a 16-bit memory read at
an address, a 16-bit memory write (never emitted by this crate), or a
foreign call to the code at an address with two arguments. -/
inductive Event where
  | read (addr : Nat)
  | write (addr : Nat) (val : Nat)
  | call (addr : Nat) (arg1 arg2 : Nat)
deriving DecidableEq, Repr

/-- `ROM::rom_table_code` (src/lib.rs lines 82-84):
`(c1 as u32) | ((c2 as u32) << 8)`.  The arguments are `u8` (masked to
8 bits) and the result is a `u32` (masked to 32 bits). -/
def rom_table_code (c1 c2 : Nat) : Nat :=
  ((c1 % 2 ^ 8) ||| ((c2 % 2 ^ 8) <<< 8)) % 2 ^ 32

/-- `ROM::rom_hword_as_ptr` (src/lib.rs lines 87-96): widen the `u16`
offset to `usize` (zero-extension, identity on `Nat`), dereference it as a
`*const u16` (one 16-bit read, recorded in the trace), and widen the value
read to `usize` and return it as a `*mut c_void` (zero-extension again).
Returns the value together with the event trace of the execution. -/
def rom_hword_as_ptr (env : RomEnv) (rom_address : Nat) : Nat × List Event :=
  let addr_val := rom_address % 2 ^ 16
  let value := env.mem addr_val % 2 ^ 16
  (value, [Event.read addr_val])

/-- `ROM::rom_func_lookup` (src/lib.rs lines 100-120): pack the two code
characters with `rom_table_code`, read the function-table base address at
`BOOTROM_FUNC_TABLE_OFFSET`, read the lookup-helper address at
`BOOTROM_TABLE_LOOKUP_OFFSET`, transmute the helper address to a function
and call it with `(func_table, code)`, returning its result unmodified.
Returns the value together with the event trace of the execution. -/
def rom_func_lookup (env : RomEnv) (c1 c2 : Nat) : Nat × List Event :=
  let code := rom_table_code c1 c2
  let ft := rom_hword_as_ptr env BOOTROM_FUNC_TABLE_OFFSET
  let func_table := ft.1
  let lu := rom_hword_as_ptr env BOOTROM_TABLE_LOOKUP_OFFSET
  let lookup_addr := lu.1
  let result := env.callFn lookup_addr func_table code
  (result, ft.2 ++ lu.2 ++ [Event.call lookup_addr func_table code])

/-- `ROM::reset_usb_boot` (src/lib.rs lines 55-74), up to and including
the foreign call: look up the function for `ROM_FUNC_RESET_USB_BOOT`,
transmute the returned pointer to a function and call it with the two
`u32` mask arguments, verbatim and in order.  The return value of the
foreign call is unused (the Rust signature returns `!` and control then
enters `loop` with an empty body, modelled by `bootFlowStep`), so the
denotation is just the event trace. -/
def reset_usb_boot_call (env : RomEnv)
    (usb_activity_gpio_pin_mask disable_interface_mask : Nat) : List Event :=
  let fl := rom_func_lookup env ROM_FUNC_RESET_USB_BOOT.1 ROM_FUNC_RESET_USB_BOOT.2
  let func_ptr := fl.1
  fl.2 ++ [Event.call func_ptr usb_activity_gpio_pin_mask disable_interface_mask]

/-- Control-flow states of `ROM::reset_usb_boot` from the foreign call
onwards (src/lib.rs lines 70-73): `atCall` is the point of the foreign
call `func(...)`; `inLoop` is the trailing `loop` with an empty body;
`returned` would be a return to the caller.  The Rust return type is `!`
(never), the body has no `return`, and no statement follows the loop. -/
inductive BootFlow where
  | atCall
  | inLoop
  | returned
deriving DecidableEq, Repr

/-- One control-flow step of `ROM::reset_usb_boot` after the resolved
function pointer has been obtained.  Even if the foreign call came back,
the next statement is the trailing empty `loop`, which steps to itself;
no transition targets `returned`. -/
def bootFlowStep : BootFlow → BootFlow
  | BootFlow.atCall => BootFlow.inLoop
  | BootFlow.inLoop => BootFlow.inLoop
  | BootFlow.returned => BootFlow.returned

/-- The addresses of the memory reads in a trace, in order. -/
def readAddrs : List Event → List Nat
  | [] => []
  | Event.read a :: es => a :: readAddrs es
  | Event.write _ _ :: es => readAddrs es
  | Event.call _ _ _ :: es => readAddrs es

/-- A concrete all-zero hardware environment, used to instantiate
universally quantified theorems at a specific input. -/
def env0 : RomEnv where
  mem := fun _ => 0
  callFn := fun _ _ _ => 0

/-- Disjoint bit ranges: an 8-bit value or-ed with a value shifted left by
8 is the same as adding them. -/
lemma lor_shiftLeft_eight_eq_add (a b : Nat) (ha : a < 2 ^ 8) :
    a ||| b <<< 8 = a + 2 ^ 8 * b := by
  have hmod : (a ||| b <<< 8) % 2 ^ 8 = a := by
    apply Nat.eq_of_testBit_eq
    intro i
    simp only [Nat.testBit_mod_two_pow, Nat.testBit_lor, Nat.testBit_shiftLeft]
    rcases Nat.lt_or_ge i 8 with h | h
    · simp [h, Nat.not_le.mpr h]
    · have hbit : a.testBit i = false :=
        Nat.testBit_lt_two_pow (Nat.lt_of_lt_of_le ha (Nat.pow_le_pow_right (by norm_num) h))
      simp [Nat.not_lt.mpr h, hbit]
  have hdiv : (a ||| b <<< 8) / 2 ^ 8 = b := by
    rw [← Nat.shiftRight_eq_div_pow]
    apply Nat.eq_of_testBit_eq
    intro i
    simp only [Nat.testBit_shiftRight, Nat.testBit_lor, Nat.testBit_shiftLeft]
    have hbit : a.testBit (8 + i) = false :=
      Nat.testBit_lt_two_pow
        (Nat.lt_of_lt_of_le ha (Nat.pow_le_pow_right (by norm_num) (Nat.le_add_right 8 i)))
    simp [hbit, Nat.add_sub_cancel_left]
  have := Nat.div_add_mod (a ||| b <<< 8) (2 ^ 8)
  omega

/-- Arithmetic form of `rom_table_code`: the first byte occupies the low
8 bits and the second byte the next 8 bits. -/
lemma rom_table_code_eq_add (c1 c2 : Nat) :
    rom_table_code c1 c2 = c1 % 2 ^ 8 + 2 ^ 8 * (c2 % 2 ^ 8) := by
  unfold rom_table_code
  rw [lor_shiftLeft_eight_eq_add _ _ (Nat.mod_lt _ (by norm_num))]
  have h1 : c1 % 2 ^ 8 < 2 ^ 8 := Nat.mod_lt _ (by norm_num)
  have h2 : c2 % 2 ^ 8 < 2 ^ 8 := Nat.mod_lt _ (by norm_num)
  apply Nat.mod_eq_of_lt
  omega

/-- Claim C1: for every two-byte mnemonic, `rom_func_lookup` packs the
bytes into a 32-bit key, resolves the function-table base by a 16-bit read
at the function-table offset, resolves the lookup-helper address by a
16-bit read at the lookup-helper offset, invokes the helper once with
(table pointer, key), and returns its result unmodified. -/
theorem rom_func_lookup_steps (env : RomEnv) (c1 c2 : Nat) :
    rom_func_lookup env c1 c2 =
      (env.callFn (env.mem BOOTROM_TABLE_LOOKUP_OFFSET % 2 ^ 16)
        (env.mem BOOTROM_FUNC_TABLE_OFFSET % 2 ^ 16) (rom_table_code c1 c2),
       [Event.read BOOTROM_FUNC_TABLE_OFFSET,
        Event.read BOOTROM_TABLE_LOOKUP_OFFSET,
        Event.call (env.mem BOOTROM_TABLE_LOOKUP_OFFSET % 2 ^ 16)
          (env.mem BOOTROM_FUNC_TABLE_OFFSET % 2 ^ 16) (rom_table_code c1 c2)]) :=
  rfl

/-- Claim C2: for byte inputs, `rom_table_code` returns exactly
`c1 | (c2 << 8)`; packing (0x55, 0x42) yields 0x4255 and not 0x5542. -/
theorem rom_table_code_packs (c1 c2 : Nat) (h1 : c1 < 2 ^ 8) (h2 : c2 < 2 ^ 8) :
    rom_table_code c1 c2 = c1 ||| c2 <<< 8 ∧
    rom_table_code 0x55 0x42 = 0x4255 ∧ rom_table_code 0x55 0x42 ≠ 0x5542 := by
  refine ⟨?_, by decide, by decide⟩
  rw [rom_table_code_eq_add, lor_shiftLeft_eight_eq_add _ _ h1,
    Nat.mod_eq_of_lt h1, Nat.mod_eq_of_lt h2]

/-- Witness for C2 at the concrete mnemonic (0x55, 0x42). -/
theorem rom_table_code_packs_witness :
    (0x55 : Nat) < 2 ^ 8 ∧ (0x42 : Nat) < 2 ^ 8 ∧
    (rom_table_code 0x55 0x42 = 0x55 ||| 0x42 <<< 8 ∧
      rom_table_code 0x55 0x42 = 0x4255 ∧ rom_table_code 0x55 0x42 ≠ 0x5542) :=
  ⟨by decide, by decide, rom_table_code_packs 0x55 0x42 (by decide) (by decide)⟩

/-- Claim C3: the control flow of `reset_usb_boot` never reaches a return
to the caller: from the foreign call onwards, no number of execution steps
lands in the `returned` state, because the statement after the call is an
empty `loop` that steps to itself (and the Rust signature is `-> !`). -/
theorem reset_usb_boot_never_returns (n : Nat) :
    bootFlowStep^[n] BootFlow.atCall ≠ BootFlow.returned := by
  have key : ∀ m : Nat, bootFlowStep^[m] BootFlow.atCall = BootFlow.atCall ∨
      bootFlowStep^[m] BootFlow.atCall = BootFlow.inLoop := by
    intro m
    induction m with
    | zero => exact Or.inl rfl
    | succ k ih =>
      rcases ih with h | h <;> rw [Function.iterate_succ_apply', h] <;>
        exact Or.inr rfl
  intro hn
  rcases key n with h | h <;> rw [h] at hn <;> exact BootFlow.noConfusion hn

/-- Claim C4: the function-table offset equals 0x14 and the lookup-helper
offset equals 0x18; every execution of the lookup (and of the bootloader
entry built on it) reads exactly these two fixed addresses, independent of
the runtime inputs, so the offsets are never computed at runtime. -/
theorem bootrom_offsets_fixed :
    BOOTROM_FUNC_TABLE_OFFSET = 0x14 ∧ BOOTROM_TABLE_LOOKUP_OFFSET = 0x18 ∧
    (∀ env : RomEnv, ∀ c1 c2 : Nat,
      readAddrs (rom_func_lookup env c1 c2).2 =
        [BOOTROM_FUNC_TABLE_OFFSET, BOOTROM_TABLE_LOOKUP_OFFSET]) ∧
    (∀ env : RomEnv, ∀ a b : Nat,
      readAddrs (reset_usb_boot_call env a b) =
        [BOOTROM_FUNC_TABLE_OFFSET, BOOTROM_TABLE_LOOKUP_OFFSET]) :=
  ⟨rfl, rfl, fun _ _ _ => rfl, fun _ _ _ => rfl⟩

/-- Claim C5: `rom_hword_as_ptr` performs exactly one 16-bit read, at the
zero-extended offset, returns the value read zero-extended (identity on
naturals) with no validation, and performs no writes. -/
theorem rom_hword_as_ptr_single_read (env : RomEnv) (rom_address : Nat) :
    rom_hword_as_ptr env rom_address =
      (env.mem (rom_address % 2 ^ 16) % 2 ^ 16,
       [Event.read (rom_address % 2 ^ 16)]) ∧
    ∀ a v : Nat, Event.write a v ∉ (rom_hword_as_ptr env rom_address).2 := by
  refine ⟨rfl, ?_⟩
  intro a v h
  simp only [rom_hword_as_ptr, List.mem_singleton] at h
  exact Event.noConfusion h

/-- Claim C6: the helper result is returned by `rom_func_lookup`
unmodified, and `reset_usb_boot` calls whatever address the lookup
produced without inspecting it: in particular when the lookup result is
the null sentinel 0, the foreign call is still made at address 0. -/
theorem lookup_result_uninspected (env : RomEnv) (c1 c2 a b : Nat) :
    (rom_func_lookup env c1 c2).1 =
      env.callFn (env.mem BOOTROM_TABLE_LOOKUP_OFFSET % 2 ^ 16)
        (env.mem BOOTROM_FUNC_TABLE_OFFSET % 2 ^ 16) (rom_table_code c1 c2) ∧
    ((rom_func_lookup env 0x55 0x42).1 = 0 →
      Event.call 0 a b ∈ reset_usb_boot_call env a b) := by
  refine ⟨rfl, ?_⟩
  intro h
  have e : reset_usb_boot_call env a b =
      (rom_func_lookup env 0x55 0x42).2 ++
        [Event.call ((rom_func_lookup env 0x55 0x42).1) a b] := rfl
  rw [e, h]
  exact List.mem_append_right _ (by simp)

/-- Witness for C6: in the all-zero environment the lookup returns 0 and
the foreign call at address 0 is still made. -/
theorem lookup_result_uninspected_witness :
    Event.call 0 0 0 ∈ reset_usb_boot_call env0 0 0 :=
  (lookup_result_uninspected env0 0x55 0x42 0 0).2 rfl

/-- Claim C7: the lookup is deterministic: its outcome depends only on the
ROM memory contents and the helper behaviour, so two lookups of the same
mnemonic against the same immutable environment yield the same resolved
address, with no state retained between calls. -/
theorem rom_func_lookup_deterministic (env1 env2 : RomEnv) (c1 c2 : Nat)
    (hmem : env1.mem = env2.mem) (hcall : env1.callFn = env2.callFn) :
    rom_func_lookup env1 c1 c2 = rom_func_lookup env2 c1 c2 := by
  cases env1
  cases env2
  cases hmem
  cases hcall
  rfl

/-- Witness for C7 at the all-zero environment and the (0x55, 0x42)
mnemonic. -/
theorem rom_func_lookup_deterministic_witness :
    rom_func_lookup env0 0x55 0x42 = rom_func_lookup env0 0x55 0x42 :=
  rom_func_lookup_deterministic env0 env0 0x55 0x42 rfl rfl

/-- Claim C8: key packing is order-sensitive: for distinct bytes, swapping
the two mnemonic characters produces a different key. -/
theorem rom_table_code_order_sensitive (c1 c2 : Nat) (h1 : c1 < 2 ^ 8)
    (h2 : c2 < 2 ^ 8) (hne : c1 ≠ c2) :
    rom_table_code c1 c2 ≠ rom_table_code c2 c1 := by
  rw [rom_table_code_eq_add, rom_table_code_eq_add,
    Nat.mod_eq_of_lt h1, Nat.mod_eq_of_lt h2]
  have hp : (2 : Nat) ^ 8 = 256 := rfl
  rw [hp]
  omega

/-- Witness for C8 at the concrete bytes 0x55 and 0x42. -/
theorem rom_table_code_order_sensitive_witness :
    (0x55 : Nat) < 2 ^ 8 ∧ (0x42 : Nat) < 2 ^ 8 ∧ (0x55 : Nat) ≠ 0x42 ∧
    rom_table_code 0x55 0x42 ≠ rom_table_code 0x42 0x55 :=
  ⟨by decide, by decide, by decide,
    rom_table_code_order_sensitive 0x55 0x42 (by decide) (by decide) (by decide)⟩

/-- Claim C9: for all byte inputs the packed key is below 0x10000: its
upper 16 bits are zero even though it is carried as a u32. -/
theorem rom_table_code_fits_sixteen_bits (c1 c2 : Nat) :
    rom_table_code c1 c2 < 0x10000 := by
  rw [rom_table_code_eq_add]
  have h1 : c1 % 2 ^ 8 < 2 ^ 8 := Nat.mod_lt _ (by norm_num)
  have h2 : c2 % 2 ^ 8 < 2 ^ 8 := Nat.mod_lt _ (by norm_num)
  have hp : (2 : Nat) ^ 8 = 256 := rfl
  rw [hp] at h1 h2 ⊢
  omega

/-- Claim C10: `reset_usb_boot` passes its two 32-bit mask arguments to
the function resolved for mnemonic (0x55, 0x42) verbatim and in order, as
the final foreign call of its trace; its only other observable inputs are
the two fixed-offset reads performed by the lookup. -/
theorem reset_usb_boot_forwards_args (env : RomEnv) (a b : Nat) :
    reset_usb_boot_call env a b =
      [Event.read BOOTROM_FUNC_TABLE_OFFSET,
       Event.read BOOTROM_TABLE_LOOKUP_OFFSET,
       Event.call (env.mem BOOTROM_TABLE_LOOKUP_OFFSET % 2 ^ 16)
         (env.mem BOOTROM_FUNC_TABLE_OFFSET % 2 ^ 16)
         (rom_table_code ROM_FUNC_RESET_USB_BOOT.1 ROM_FUNC_RESET_USB_BOOT.2),
       Event.call
         (env.callFn (env.mem BOOTROM_TABLE_LOOKUP_OFFSET % 2 ^ 16)
           (env.mem BOOTROM_FUNC_TABLE_OFFSET % 2 ^ 16)
           (rom_table_code ROM_FUNC_RESET_USB_BOOT.1 ROM_FUNC_RESET_USB_BOOT.2))
         a b] :=
  rfl

/-- Witness for C3 at a concrete step count. -/
theorem reset_usb_boot_never_returns_witness :
    bootFlowStep^[3] BootFlow.atCall ≠ BootFlow.returned :=
  reset_usb_boot_never_returns 3

/-- Witness for C5 at the all-zero environment and the function-table
offset. -/
theorem rom_hword_as_ptr_single_read_witness :
    rom_hword_as_ptr env0 0x14 = (0, [Event.read 0x14]) ∧
    Event.write 0 0 ∉ (rom_hword_as_ptr env0 0x14).2 :=
  ⟨(rom_hword_as_ptr_single_read env0 0x14).1,
    (rom_hword_as_ptr_single_read env0 0x14).2 0 0⟩
